import Mathlib

/-!
Verification development for the supply-chain chaincode in
`src/lib/assetTransfer.js` (the `AssetTransfer` contract).

The private-data store is modelled as an association list from collection
names to key/value lists.  A value is one of the shapes the contract
serializes: an asset-id index (key `assets`), a per-asset record, a
transfer-transaction record, the transaction index (key `transactions`)
and the activity log (key `activity`).  Reads that in the source would
parse a value of the wrong shape and then raise inside the `try` block are
modelled by the corresponding `catch` branch of each operation.
-/

namespace Chaincode

/-- One entry of an asset history: `{ MSP, timestamp }` as written by
`CreatePrivateAsset` and `OwnAsset`. -/
structure HistEntry where
  MSP : String
  timestamp : Nat
deriving DecidableEq, Repr

/-- A per-asset private record `{ assetId, tags, history }`.  The tags value
is opaque to the contract; it is modelled as the string it was parsed from. -/
structure AssetRec where
  assetId : String
  tags : String
  history : List HistEntry
deriving DecidableEq, Repr

/-- The transfer-transaction record written by `CreatePrivateTransaction`
and mutated by `AcceptTransaction`, `TransferNow`, `CancelTransaction` and
`OwnAsset`.  `assetIds` holds full asset snapshots, as in the source. -/
structure TransactionRec where
  id : String
  assetIds : List AssetRec
  newOwnerMSP : String
  isNewOwnerAccepted : Bool
  isCurrentOwnerApproved : Bool
  isCancelled : Bool
  isReturned : Bool
  cancelledAt : Nat
  returnedAt : Nat
  reasonForReturn : String
  ownerOrgId : String
  newOwnerOrgId : String
  isOwnershipChanged : Bool
deriving DecidableEq, Repr

/-- One entry `{ id, created }` of the transaction index stored under the
key `transactions` of `assetCollection`. -/
structure TxIdxEntry where
  id : String
  created : Nat
deriving DecidableEq, Repr

/-- One activity-log entry.  The source also stores an `assets` detail list,
which it fills from non-awaited async callbacks; that field is not modelled. -/
structure Activity where
  initiated : String
  description : String
  action : String
  timestamp : Nat
deriving DecidableEq, Repr

/-- The shapes of values the contract stores in private data. -/
inductive Val where
  | idx (ids : List String)
  | asset (a : AssetRec)
  | txn (t : TransactionRec)
  | txnIdx (es : List TxIdxEntry)
  | act (es : List Activity)
deriving DecidableEq, Repr

/-- The `{ message, details }` envelope the operations return. -/
structure Ret where
  message : String
  details : String
deriving DecidableEq, Repr

/-- A private-data collection: an association list from keys to values. -/
abbrev KV := List (String × Val)

/-- The whole private-data state: an association list from collection names
to collections. -/
abbrev St := List (String × KV)

/-- Lookup in an association list (first match wins, as in the store). -/
def alookup {α : Type} (k : String) : List (String × α) → Option α
  | [] => none
  | (k1, v) :: r => if k1 = k then some v else alookup k r

/-- Overwrite the value of a key, appending the key if absent
(the semantics of a `putPrivateData` call). -/
def aset {α : Type} (k : String) (v : α) : List (String × α) → List (String × α)
  | [] => [(k, v)]
  | (k1, v1) :: r => if k1 = k then (k, v) :: r else (k1, v1) :: aset k v r

/-- Remove a key (the semantics of a `deletePrivateData` call). -/
def adel {α : Type} (k : String) : List (String × α) → List (String × α)
  | [] => []
  | (k1, v1) :: r => if k1 = k then adel k r else (k1, v1) :: adel k r

/-- The contents of a collection; a collection never written is empty. -/
def getColl (s : St) (c : String) : KV := (alookup c s).getD []

/-- Read one key of one collection.  `none` corresponds to an absent key,
i.e. to `getPrivateDataHash` returning an empty hash and `getPrivateData`
returning an empty buffer. -/
def getVal (s : St) (c k : String) : Option Val := alookup k (getColl s c)

/-- Write one key of one collection. -/
def putVal (s : St) (c k : String) (v : Val) : St := aset c (aset k v (getColl s c)) s

/-- Delete one key of one collection. -/
def delVal (s : St) (c k : String) : St := aset c (adel k (getColl s c)) s

/-- The per-organization collection name `[MSP, "PrivateCollection"].join("")`. -/
def pcoll (msp : String) : String := msp ++ "PrivateCollection"

/-- One visit of the `assets.forEach((asset, assetIndex) => ...)` removal
pass: the element currently at position `k` (if any) is compared against
every requested id, and each match runs `assets.splice(assetIndex, 1)`,
which removes the element currently at position `k`. -/
def spliceStep (requested : List String) (k : Nat) (arr : List String) : List String :=
  match arr[k]? with
  | none => arr
  | some a => requested.foldl (fun acc r => if r = a then acc.eraseIdx k else acc) arr

/-- The source removal idiom

    assets.forEach((asset, assetIndex) => {
        assetIds.forEach((assetId) => {
            if (assetId === asset) assets.splice(assetIndex, 1);
        })
    })

modelled with JS `forEach` semantics: the visited index runs over the
original length while splice mutates the array in place, so the element
shifted into a removed slot is never visited. -/
def spliceRemove (requested : List String) (arr : List String) : List String :=
  (List.range arr.length).foldl (fun acc k => spliceStep requested k acc) arr

/-- `LogIt`: prepend one activity entry to the `activity` key of
`assetCollection`, creating the list when the key is absent.  When the
stored value does not parse as a list, the prepend raises inside `LogIt`
and is caught there, leaving the state unchanged.  The source returns a
`{ message, details }` object that every caller discards, so the model
returns just the state. -/
def LogIt (s : St) (msp description action : String) (ts : Nat) : St :=
  match getVal s "assetCollection" "activity" with
  | some (Val.act activities) =>
      putVal s "assetCollection" "activity"
        (Val.act (⟨msp, description, action, ts⟩ :: activities))
  | some _ => s
  | none =>
      putVal s "assetCollection" "activity" (Val.act [⟨msp, description, action, ts⟩])

/-- `ReadPrivateAsset`: resolve an asset id in the caller partition;
`some` corresponds to the `{ message: "Done", details: asset }` result. -/
def ReadPrivateAsset (s : St) (msp assetId : String) : Option AssetRec :=
  match getVal s (pcoll msp) assetId with
  | some (Val.asset a) => some a
  | _ => none

/-- `AcceptTransaction`: when the caller is `newOwnerMSP`, set
`isNewOwnerAccepted` and write the record back, then log; otherwise return
an error without writing.  A missing record makes `JSON.parse` raise, and
the catch handler logs an error entry. -/
def AcceptTransaction (s : St) (msp transactionId : String) (ts : Nat) : Ret × St :=
  match getVal s "assetCollection" transactionId with
  | some (Val.txn t) =>
    if msp = t.newOwnerMSP then
      let s1 := putVal s "assetCollection" transactionId
                  (Val.txn { t with isNewOwnerAccepted := true })
      let s2 := LogIt s1 msp (t.newOwnerMSP ++ " accepted the transaction") "ACCEPT TRANSACTION" ts
      (⟨"Done", "Transaction " ++ transactionId ++ " accepted by " ++ msp⟩, s2)
    else (⟨"Error", "You are not allowed to accept this transaction"⟩, s)
  | some _ => (⟨"Error", "You are not allowed to accept this transaction"⟩, s)
  | none =>
      (⟨"Error", "JSON parse failed"⟩, LogIt s msp "JSON parse failed" "ERROR ACCEPT TRANSACTION" ts)

/-- The record-deletion loop of `TransferNow`:
for each snapshot, `deletePrivateData` of its asset id in the caller partition. -/
def delDocs (msp : String) (l : List AssetRec) (s : St) : St :=
  l.foldl (fun st a => delVal st (pcoll msp) a.assetId) s

/-- `TransferNow`: only a caller other than `newOwnerMSP` with
`isNewOwnerAccepted` set may approve; the success path runs the splice
removal pass on the caller index, deletes each snapshot record, writes the
index and the record with `isCurrentOwnerApproved` set, and logs. -/
def TransferNow (s : St) (msp transactionId : String) (ts : Nat) : Ret × St :=
  match getVal s "assetCollection" transactionId with
  | some (Val.txn t) =>
    if msp ≠ t.newOwnerMSP then
      if t.isNewOwnerAccepted then
        match getVal s (pcoll msp) "assets" with
        | some (Val.idx assets) =>
          let assets1 := spliceRemove (t.assetIds.map (fun a => a.assetId)) assets
          let s1 := delDocs msp t.assetIds s
          let s2 := putVal s1 (pcoll msp) "assets" (Val.idx assets1)
          let s3 := putVal s2 "assetCollection" transactionId
                      (Val.txn { t with isCurrentOwnerApproved := true })
          let s4 := LogIt s3 msp
                      ("Transaction " ++ transactionId ++ " assets has been changed ownership")
                      "TRANSFERRED" ts
          (⟨"Done", "Transaction " ++ transactionId ++ " has been transferred"⟩, s4)
        | _ =>
          (⟨"Error", "assets read failed"⟩,
           LogIt s msp
             ("Error while changing the ownership of assets in transaction " ++ transactionId)
             "ERROR TRANSFERRING" ts)
      else (⟨"Error", "Cannot transfer: Receiver still not accepted the request"⟩, s)
    else (⟨"Error", "You are not allowed to process this transaction"⟩, s)
  | some _ => (⟨"Error", "Cannot transfer: Receiver still not accepted the request"⟩, s)
  | none =>
      (⟨"Error", "JSON parse failed"⟩,
       LogIt s msp
         ("Error while changing the ownership of assets in transaction " ++ transactionId)
         "ERROR TRANSFERRING" ts)

/-- The record-write loop of `OwnAsset`: each snapshot gets a fresh
`{ MSP, timestamp }` history entry prepended and is written into the caller
partition under its asset id. -/
def putDocs (msp : String) (ts : Nat) (l : List AssetRec) (s : St) : St :=
  l.foldl (fun st a =>
    putVal st (pcoll msp) a.assetId
      (Val.asset { a with history := ⟨msp, ts⟩ :: a.history })) s

/-- The tail of the `OwnAsset` success path, after the caller index has been
written: write the snapshot records, set `isOwnershipChanged`, log.  The
history loop of the source mutates the snapshot objects held inside
`transaction.assetIds` before the record is serialized, so the transaction
is written back with the prepended history entries as well. -/
def ownFinish (sIdx : St) (msp transactionId : String) (t : TransactionRec) (ts : Nat) :
    Ret × St :=
  let s2 := putDocs msp ts t.assetIds sIdx
  let s3 := putVal s2 "assetCollection" transactionId
              (Val.txn { t with
                assetIds := t.assetIds.map (fun a =>
                  { a with history := ⟨msp, ts⟩ :: a.history }),
                isOwnershipChanged := true })
  let s4 := LogIt s3 msp
              ("Transaction " ++ transactionId ++ " assets has been fully transferred to "
                ++ t.newOwnerMSP)
              "OWNED" ts
  (⟨"Done", "Transaction " ++ transactionId ++ " transferred successfully"⟩, s4)

/-- `OwnAsset`: only the `newOwnerMSP` caller with `isCurrentOwnerApproved`
set may finalize; the success path prepends the asset ids to the caller
index (creating it when absent), writes each snapshot record with a new
history entry, and writes the record with `isOwnershipChanged` set. -/
def OwnAsset (s : St) (msp transactionId : String) (ts : Nat) : Ret × St :=
  match getVal s "assetCollection" transactionId with
  | some (Val.txn t) =>
    if msp = t.newOwnerMSP then
      if t.isCurrentOwnerApproved then
        let assetIds := t.assetIds.map (fun a => a.assetId)
        match getVal s (pcoll msp) "assets" with
        | some (Val.idx assets) =>
            ownFinish (putVal s (pcoll msp) "assets" (Val.idx (assetIds ++ assets)))
              msp transactionId t ts
        | none =>
            ownFinish (putVal s (pcoll msp) "assets" (Val.idx assetIds))
              msp transactionId t ts
        | some _ =>
            (⟨"Error", "assets spread failed"⟩,
             LogIt s msp ("Error owning the asset in transaction " ++ transactionId) "OWNED" ts)
      else (⟨"Error", "Owner still not approved the transfer"⟩, s)
    else (⟨"Error", "You are not allowed to own this asset"⟩, s)
  | some _ => (⟨"Error", "You are not allowed to own this asset"⟩, s)
  | none =>
      (⟨"Error", "JSON parse failed"⟩,
       LogIt s msp ("Error owning the asset in transaction " ++ transactionId) "OWNED" ts)

/-- `CancelTransaction`: forbidden for the `newOwnerMSP` caller; otherwise
the asset ids of the record are appended to the caller index and the record
is written back with `isCancelled` and `cancelledAt` set. -/
def CancelTransaction (s : St) (msp transactionId : String) (ts : Nat) : Ret × St :=
  match getVal s "assetCollection" transactionId with
  | some (Val.txn t) =>
    if t.newOwnerMSP = msp then
      (⟨"Error", "You are not allowed to cancel this transaction"⟩, s)
    else
      match getVal s (pcoll msp) "assets" with
      | some (Val.idx assets) =>
        let toBack := t.assetIds.map (fun a => a.assetId)
        let s1 := putVal s (pcoll msp) "assets" (Val.idx (assets ++ toBack))
        let s2 := putVal s1 "assetCollection" transactionId
                    (Val.txn { t with isCancelled := true, cancelledAt := ts })
        let s3 := LogIt s2 msp ("Transaction " ++ transactionId ++ " has been cancelled")
                    "CANCEL TRANSACTION" ts
        (⟨"Done", "Transaction " ++ transactionId ++ " has been canceled"⟩, s3)
      | _ =>
        (⟨"Error", "assets read failed"⟩,
         LogIt s msp ("Error cancelling transaction " ++ transactionId)
           "ERROR CANCEL TRANSACTION" ts)
  | some _ =>
      -- the stored value parses, but iterating `transaction.assetIds` raises
      (⟨"Error", "transaction.assetIds is not iterable"⟩,
       LogIt s msp ("Error cancelling transaction " ++ transactionId)
         "ERROR CANCEL TRANSACTION" ts)
  | none => (⟨"Error", "Transaction does not exist"⟩, s)

/-- `CreatePrivateTransaction`: resolve each requested id (silently skipping
failures), run the splice removal pass on the caller index, write the
all-flags-false record, prepend `{ id, created }` to the transaction index,
log.  The `transactions` existence probe happens before any write, as in
the source. -/
def CreatePrivateTransaction (s : St) (msp ownerOrgId newOwnerOrgId transactionId : String)
    (assetIds : List String) (newOwnerMSP : String) (ts : Nat) : Ret × St :=
  let hashPresent := (getVal s "assetCollection" "transactions").isSome
  let assetDetails := assetIds.filterMap (fun i => ReadPrivateAsset s msp i)
  match getVal s (pcoll msp) "assets" with
  | some (Val.idx assets) =>
    let s1 := putVal s (pcoll msp) "assets" (Val.idx (spliceRemove assetIds assets))
    let t : TransactionRec :=
      { id := transactionId, assetIds := assetDetails, newOwnerMSP := newOwnerMSP,
        isNewOwnerAccepted := false, isCurrentOwnerApproved := false, isCancelled := false,
        isReturned := false, cancelledAt := 0, returnedAt := 0, reasonForReturn := "",
        ownerOrgId := ownerOrgId, newOwnerOrgId := newOwnerOrgId, isOwnershipChanged := false }
    let s2 := putVal s1 "assetCollection" transactionId (Val.txn t)
    if hashPresent then
      match getVal s2 "assetCollection" "transactions" with
      | some (Val.txnIdx transactions) =>
        let s3 := putVal s2 "assetCollection" "transactions"
                    (Val.txnIdx (⟨transactionId, ts⟩ :: transactions))
        let s4 := LogIt s3 msp ("Initiated transfer of asset/s to " ++ newOwnerMSP)
                    "INITIATE TRANSACTION" ts
        (⟨"Done", "Transaction " ++ transactionId ++ " created"⟩, s4)
      | _ =>
        (⟨"Error", "transactions read failed"⟩,
         LogIt s2 msp "Error creating transaction" "ERROR INITIATE TRANSACTION" ts)
    else
      let s3 := putVal s2 "assetCollection" "transactions" (Val.txnIdx [⟨transactionId, ts⟩])
      let s4 := LogIt s3 msp ("Initiated transfer of asset/s to " ++ newOwnerMSP)
                  "INITIATE TRANSACTION" ts
      (⟨"Done", "Transaction " ++ transactionId ++ " created"⟩, s4)
  | _ =>
    (⟨"Error", "assets read failed"⟩,
     LogIt s msp "Error creating transaction" "ERROR INITIATE TRANSACTION" ts)

/-- `UpdatePrivateAsset`: an absent key is an error without any write; for a
stored record only `tags` is replaced.  When the stored value is of another
shape the source sets a `tags` property on it and writes it back; that is
approximated as writing the value back unchanged. -/
def UpdatePrivateAsset (s : St) (msp assetId tags : String) (ts : Nat) : Ret × St :=
  match getVal s (pcoll msp) assetId with
  | some (Val.asset a) =>
    let s1 := putVal s (pcoll msp) assetId (Val.asset { a with tags := tags })
    let s2 := LogIt s1 msp (assetId ++ " has been updated successfully") "SUCCESS UPDATE ASSET" ts
    (⟨"Done", "Asset " ++ assetId ++ " updated "⟩, s2)
  | some v =>
    let s1 := putVal s (pcoll msp) assetId v
    let s2 := LogIt s1 msp (assetId ++ " has been updated successfully") "SUCCESS UPDATE ASSET" ts
    (⟨"Done", "Asset " ++ assetId ++ " updated "⟩, s2)
  | none => (⟨"Error", "Asset does not exist"⟩, s)

/-- `AcceptReturnTransaction`.  The source has no role check at all.  After
reading the record it calls `getPrivateData(orgCollectionName, "assets")`
with the two-element collection-name ARRAY, not the joined string used
everywhere else (and its per-record write uses the misspelled field
`asseId`).  Whether the stub rejects the non-string collection name or
coerces it to a name that denotes no configured collection, that read
fails, so control reaches the catch handler: an error entry is logged and
an Error result returned, with no index, record or transaction write. -/
def AcceptReturnTransaction (s : St) (msp transactionId : String) (ts : Nat) : Ret × St :=
  match getVal s "assetCollection" transactionId with
  | some (Val.txn _) =>
      (⟨"Error", "collection must be a valid string"⟩,
       LogIt s msp ("Error accepting returned assets " ++ transactionId)
         "ERROR RETURN ASSETS" ts)
  | some _ =>
      (⟨"Error", "transaction.assetIds is not iterable"⟩,
       LogIt s msp ("Error accepting returned assets " ++ transactionId)
         "ERROR RETURN ASSETS" ts)
  | none => (⟨"Error", "Transaction does not exist"⟩, s)

/-- `GetLogsByMSP`: filter the activity list by the initiating organization. -/
def GetLogsByMSP (activities : List Activity) (msp : String) : List Activity :=
  activities.filter (fun a => a.initiated = msp)

/-- JS `Array.prototype.splice(start, deleteCount)` on an activity list:
returns the removed slice and the mutated remainder. -/
def jsSplice (l : List Activity) (start deleteCount : Int) : List Activity × List Activity :=
  let len : Int := l.length
  let actualStart := if start < 0 then max (len + start) 0 else min start len
  let delCnt := min (max deleteCount 0) (len - actualStart)
  let s := actualStart.toNat
  let d := delCnt.toNat
  ((l.drop s).take d, l.take s ++ l.drop (s + d))

/-- `GetItemsByOffset`: `null` when `start` reaches the length, otherwise
`logs.splice(start, offset)`.  The second component is the list as left
behind by the splice mutation, which the caller `ReadLogs` then measures. -/
def GetItemsByOffset (logs : List Activity) (start offset : Int) :
    Option (List Activity) × List Activity :=
  if (logs.length : Int) ≤ start then (none, logs)
  else
    let r := jsSplice logs start offset
    (some r.1, r.2)

/-- The `details` payload of `ReadLogs`. -/
inductive LogsRet where
  | dataRet (logs : Option (List Activity)) (count : Nat)
  | emptyRet
  | errRet
deriving DecidableEq, Repr

/-- `ReadLogs`: filter the stored activity list by the caller organization;
a positive offset goes through `GetItemsByOffset` (whose splice mutates the
filtered list before `count` reads its length), otherwise the whole
filtered list is returned. -/
def ReadLogs (s : St) (msp : String) (start offset : Int) : String × LogsRet :=
  match getVal s "assetCollection" "activity" with
  | some (Val.act activities) =>
      let filtered := GetLogsByMSP activities msp
      if offset > 0 then
        let r := GetItemsByOffset filtered start offset
        ("Done", LogsRet.dataRet r.1 r.2.length)
      else ("Done", LogsRet.dataRet (some filtered) filtered.length)
  | some _ => ("Error", LogsRet.errRet)
  | none => ("Done", LogsRet.emptyRet)

/-! ### Store lemmas -/

theorem alookup_aset_self {α : Type} (k : String) (v : α) :
    ∀ l : List (String × α), alookup k (aset k v l) = some v := by
  intro l
  induction l with
  | nil => simp [alookup, aset]
  | cons h r ih =>
    obtain ⟨k1, v1⟩ := h
    by_cases hk : k1 = k
    · simp [alookup, aset, hk]
    · simp [alookup, aset, hk, ih]

theorem alookup_aset_ne {α : Type} (k k2 : String) (v : α) (hk : k2 ≠ k) :
    ∀ l : List (String × α), alookup k2 (aset k v l) = alookup k2 l := by
  have hk2 : ¬(k = k2) := fun h => hk h.symm
  intro l
  induction l with
  | nil => simp [alookup, aset, hk2]
  | cons h r ih =>
    obtain ⟨k1, v1⟩ := h
    by_cases h1 : k1 = k
    · subst h1
      simp [alookup, aset, hk2]
    · simp [alookup, aset, h1, ih]

theorem alookup_adel_self {α : Type} (k : String) :
    ∀ l : List (String × α), alookup k (adel k l) = none := by
  intro l
  induction l with
  | nil => simp [alookup, adel]
  | cons h r ih =>
    obtain ⟨k1, v1⟩ := h
    by_cases h1 : k1 = k
    · simp [adel, h1, ih]
    · simp [alookup, adel, h1, ih]

theorem alookup_adel_ne {α : Type} (k k2 : String) (hk : k2 ≠ k) :
    ∀ l : List (String × α), alookup k2 (adel k l) = alookup k2 l := by
  have hk2 : ¬(k = k2) := fun h => hk h.symm
  intro l
  induction l with
  | nil => simp [alookup, adel]
  | cons h r ih =>
    obtain ⟨k1, v1⟩ := h
    by_cases h1 : k1 = k
    · subst h1
      simp [alookup, adel, hk2, ih]
    · simp [alookup, adel, h1, ih]

theorem getColl_putVal_self (s : St) (c k : String) (v : Val) :
    getColl (putVal s c k v) c = aset k v (getColl s c) := by
  unfold getColl putVal
  rw [alookup_aset_self]
  rfl

theorem getColl_putVal_ne (s : St) (c c2 k : String) (v : Val) (hc : c2 ≠ c) :
    getColl (putVal s c k v) c2 = getColl s c2 := by
  unfold getColl putVal
  rw [alookup_aset_ne _ _ _ hc]

theorem getVal_putVal_self (s : St) (c k : String) (v : Val) :
    getVal (putVal s c k v) c k = some v := by
  unfold getVal
  rw [getColl_putVal_self, alookup_aset_self]

theorem getVal_putVal_ne_key (s : St) (c k k2 : String) (v : Val) (hk : k2 ≠ k) :
    getVal (putVal s c k v) c k2 = getVal s c k2 := by
  unfold getVal
  rw [getColl_putVal_self, alookup_aset_ne _ _ _ hk]

theorem getVal_putVal_ne_coll (s : St) (c c2 k k2 : String) (v : Val) (hc : c2 ≠ c) :
    getVal (putVal s c k v) c2 k2 = getVal s c2 k2 := by
  unfold getVal
  rw [getColl_putVal_ne _ _ _ _ _ hc]

theorem getVal_delVal_self (s : St) (c k : String) :
    getVal (delVal s c k) c k = none := by
  unfold getVal delVal getColl
  rw [alookup_aset_self]
  simp [alookup_adel_self]

theorem getVal_delVal_ne_key (s : St) (c k k2 : String) (hk : k2 ≠ k) :
    getVal (delVal s c k) c k2 = getVal s c k2 := by
  unfold getVal delVal getColl
  rw [alookup_aset_self]
  simp [alookup_adel_ne _ _ hk]

theorem getVal_delVal_ne_coll (s : St) (c c2 k k2 : String) (hc : c2 ≠ c) :
    getVal (delVal s c k) c2 k2 = getVal s c2 k2 := by
  unfold getVal delVal getColl
  rw [alookup_aset_ne _ _ _ hc]

/-- The per-organization collection is never the shared `assetCollection`
(their lengths differ). -/
theorem pcoll_ne_assetCollection (msp : String) : pcoll msp ≠ "assetCollection" := by
  intro h
  have hlen := congrArg String.length h
  rw [pcoll, String.length_append] at hlen
  have h17 : ("PrivateCollection" : String).length = 17 := by decide
  have h15 : ("assetCollection" : String).length = 15 := by decide
  omega

/-- `LogIt` only ever writes the `activity` key of `assetCollection`. -/
theorem getVal_LogIt_ne (s : St) (msp d a : String) (ts : Nat) (c k : String)
    (h : c ≠ "assetCollection" ∨ k ≠ "activity") :
    getVal (LogIt s msp d a ts) c k = getVal s c k := by
  have hput : ∀ es : List Activity,
      getVal (putVal s "assetCollection" "activity" (Val.act es)) c k = getVal s c k := by
    intro es
    rcases h with h | h
    · exact getVal_putVal_ne_coll _ _ _ _ _ _ h
    · by_cases hc : c = "assetCollection"
      · subst hc; exact getVal_putVal_ne_key _ _ _ _ _ h
      · exact getVal_putVal_ne_coll _ _ _ _ _ _ hc
  unfold LogIt
  cases hv : getVal s "assetCollection" "activity" with
  | none => exact hput _
  | some v =>
    cases v with
    | idx _ => rfl
    | asset _ => rfl
    | txn _ => rfl
    | txnIdx _ => rfl
    | act es => exact hput _

/-- A stored transaction record survives `LogIt`: either its key is not
`activity`, or the value at `activity` does not parse as a list and `LogIt`
leaves the state unchanged. -/
theorem getVal_LogIt_txn (s : St) (msp d a : String) (ts : Nat) (k : String)
    (t : TransactionRec) (h : getVal s "assetCollection" k = some (Val.txn t)) :
    getVal (LogIt s msp d a ts) "assetCollection" k = some (Val.txn t) := by
  by_cases hk : k = "activity"
  · subst hk
    unfold LogIt
    rw [h]
    exact h
  · rw [getVal_LogIt_ne _ _ _ _ _ _ _ (Or.inr hk), h]

/-! ### Lemmas about the record-loop helpers -/

theorem delDocs_frame_coll (msp : String) (l : List AssetRec) (s : St) (c k : String)
    (hc : c ≠ pcoll msp) : getVal (delDocs msp l s) c k = getVal s c k := by
  induction l generalizing s with
  | nil => rfl
  | cons a r ih =>
    show getVal (delDocs msp r (delVal s (pcoll msp) a.assetId)) c k = _
    rw [ih, getVal_delVal_ne_coll _ _ _ _ _ hc]

theorem delDocs_frame_key (msp : String) (l : List AssetRec) (s : St) (k : String)
    (hk : ∀ b ∈ l, b.assetId ≠ k) :
    getVal (delDocs msp l s) (pcoll msp) k = getVal s (pcoll msp) k := by
  induction l generalizing s with
  | nil => rfl
  | cons a r ih =>
    show getVal (delDocs msp r (delVal s (pcoll msp) a.assetId)) (pcoll msp) k = _
    rw [ih _ (fun b hb => hk b (List.mem_cons_of_mem _ hb)),
      getVal_delVal_ne_key _ _ _ _ (fun h => hk a (List.mem_cons_self _ _) h.symm)]

theorem delDocs_pres_none (msp : String) (l : List AssetRec) (s : St) (k : String)
    (h : getVal s (pcoll msp) k = none) :
    getVal (delDocs msp l s) (pcoll msp) k = none := by
  induction l generalizing s with
  | nil => exact h
  | cons a r ih =>
    show getVal (delDocs msp r (delVal s (pcoll msp) a.assetId)) (pcoll msp) k = none
    apply ih
    by_cases hk : k = a.assetId
    · subst hk; exact getVal_delVal_self _ _ _
    · rw [getVal_delVal_ne_key _ _ _ _ hk]; exact h

theorem delDocs_mem (msp : String) (l : List AssetRec) (s : St) (a : AssetRec)
    (ha : a ∈ l) : getVal (delDocs msp l s) (pcoll msp) a.assetId = none := by
  induction l generalizing s with
  | nil => cases ha
  | cons b r ih =>
    show getVal (delDocs msp r (delVal s (pcoll msp) b.assetId)) (pcoll msp) a.assetId = none
    rcases List.mem_cons.mp ha with h | h
    · subst h
      apply delDocs_pres_none
      exact getVal_delVal_self _ _ _
    · exact ih _ h

theorem putDocs_frame_coll (msp : String) (ts : Nat) (l : List AssetRec) (s : St)
    (c k : String) (hc : c ≠ pcoll msp) :
    getVal (putDocs msp ts l s) c k = getVal s c k := by
  induction l generalizing s with
  | nil => rfl
  | cons a r ih =>
    show getVal (putDocs msp ts r _) c k = _
    rw [ih, getVal_putVal_ne_coll _ _ _ _ _ _ hc]

theorem putDocs_frame_key (msp : String) (ts : Nat) (l : List AssetRec) (s : St) (k : String)
    (hk : ∀ b ∈ l, b.assetId ≠ k) :
    getVal (putDocs msp ts l s) (pcoll msp) k = getVal s (pcoll msp) k := by
  induction l generalizing s with
  | nil => rfl
  | cons a r ih =>
    show getVal (putDocs msp ts r _) (pcoll msp) k = _
    rw [ih _ (fun b hb => hk b (List.mem_cons_of_mem _ hb)),
      getVal_putVal_ne_key _ _ _ _ _ (fun h => hk a (List.mem_cons_self _ _) h.symm)]

theorem putDocs_mem (msp : String) (ts : Nat) (l : List AssetRec) (s : St) (a : AssetRec)
    (ha : a ∈ l) (hnd : (l.map (fun b => b.assetId)).Nodup) :
    getVal (putDocs msp ts l s) (pcoll msp) a.assetId
      = some (Val.asset { a with history := ⟨msp, ts⟩ :: a.history }) := by
  induction l generalizing s with
  | nil => cases ha
  | cons b r ih =>
    show getVal (putDocs msp ts r _) (pcoll msp) a.assetId = _
    have hnd2 := List.nodup_cons.mp hnd
    rcases List.mem_cons.mp ha with h | h
    · subst h
      have hfr : ∀ b2 ∈ r, b2.assetId ≠ a.assetId := by
        intro b2 hb2 h2
        apply hnd2.1
        show a.assetId ∈ List.map (fun b => b.assetId) r
        rw [← h2]
        exact List.mem_map_of_mem _ hb2
      rw [putDocs_frame_key _ _ _ _ _ hfr, getVal_putVal_self]
    · exact ih _ h hnd2.2

/-! ### Helper: the AcceptTransaction success path -/

theorem AcceptTransaction_success (s : St) (msp tid : String) (ts : Nat) (t : TransactionRec)
    (ht : getVal s "assetCollection" tid = some (Val.txn t))
    (hrole : msp = t.newOwnerMSP) :
    (AcceptTransaction s msp tid ts).1.message = "Done" ∧
    getVal (AcceptTransaction s msp tid ts).2 "assetCollection" tid
      = some (Val.txn { t with isNewOwnerAccepted := true }) := by
  unfold AcceptTransaction
  rw [ht]
  simp only [if_pos hrole]
  refine ⟨by trivial, ?_⟩
  exact getVal_LogIt_txn _ _ _ _ _ _ _ (getVal_putVal_self _ _ _ _)

/-- C2: for every stored transaction record, AcceptTransaction and OwnAsset
return an error result and leave the store unchanged when the caller
organization differs from the newOwnerMSP of the record, and TransferNow
and CancelTransaction return an error result and leave the store unchanged
when the caller organization equals newOwnerMSP. -/
theorem roleEnforcement (s : St) (msp tid : String) (ts : Nat) (t : TransactionRec)
    (ht : getVal s "assetCollection" tid = some (Val.txn t)) :
    (msp ≠ t.newOwnerMSP →
      AcceptTransaction s msp tid ts
        = (⟨"Error", "You are not allowed to accept this transaction"⟩, s) ∧
      OwnAsset s msp tid ts
        = (⟨"Error", "You are not allowed to own this asset"⟩, s)) ∧
    (msp = t.newOwnerMSP →
      TransferNow s msp tid ts
        = (⟨"Error", "You are not allowed to process this transaction"⟩, s) ∧
      CancelTransaction s msp tid ts
        = (⟨"Error", "You are not allowed to cancel this transaction"⟩, s)) := by
  constructor
  · intro hne
    constructor
    · unfold AcceptTransaction
      rw [ht]
      simp only [if_neg hne]
    · unfold OwnAsset
      rw [ht]
      simp only [if_neg hne]
  · intro heq
    constructor
    · unfold TransferNow
      rw [ht]
      have : ¬(msp ≠ t.newOwnerMSP) := fun h => h heq
      simp only [if_neg this]
    · unfold CancelTransaction
      rw [ht]
      simp only [if_pos heq.symm]

def c2t : TransactionRec :=
  ⟨"t1", [], "Org2MSP", false, false, false, false, 0, 0, "", "o1", "o2", false⟩

def c2s : St := [("assetCollection", [("t1", Val.txn c2t)])]

theorem roleEnforcement_witness :
    getVal c2s "assetCollection" "t1" = some (Val.txn c2t) ∧
    "Org1MSP" ≠ c2t.newOwnerMSP ∧
    AcceptTransaction c2s "Org1MSP" "t1" 1
      = (⟨"Error", "You are not allowed to accept this transaction"⟩, c2s) ∧
    OwnAsset c2s "Org1MSP" "t1" 1
      = (⟨"Error", "You are not allowed to own this asset"⟩, c2s) ∧
    "Org2MSP" = c2t.newOwnerMSP ∧
    TransferNow c2s "Org2MSP" "t1" 1
      = (⟨"Error", "You are not allowed to process this transaction"⟩, c2s) ∧
    CancelTransaction c2s "Org2MSP" "t1" 1
      = (⟨"Error", "You are not allowed to cancel this transaction"⟩, c2s) := by
  have h1 := roleEnforcement c2s "Org1MSP" "t1" 1 c2t (by decide)
  have h2 := roleEnforcement c2s "Org2MSP" "t1" 1 c2t (by decide)
  exact ⟨by decide, by decide, (h1.1 (by decide)).1, (h1.1 (by decide)).2, by decide,
    (h2.2 (by decide)).1, (h2.2 (by decide)).2⟩

/-- C10: for a stored transaction whose newOwnerMSP equals the caller,
AcceptTransaction succeeds and sets isNewOwnerAccepted, and a second
consecutive invocation succeeds again and leaves the stored record exactly
as after the first (no guard prevents re-acceptance; the record universally
quantified here may already be accepted, cancelled or returned). -/
theorem acceptTransaction_idempotent (s : St) (msp tid : String) (ts ts2 : Nat)
    (t : TransactionRec)
    (ht : getVal s "assetCollection" tid = some (Val.txn t))
    (hrole : msp = t.newOwnerMSP) :
    (AcceptTransaction s msp tid ts).1.message = "Done" ∧
    getVal (AcceptTransaction s msp tid ts).2 "assetCollection" tid
      = some (Val.txn { t with isNewOwnerAccepted := true }) ∧
    (AcceptTransaction (AcceptTransaction s msp tid ts).2 msp tid ts2).1.message = "Done" ∧
    getVal (AcceptTransaction (AcceptTransaction s msp tid ts).2 msp tid ts2).2
        "assetCollection" tid
      = getVal (AcceptTransaction s msp tid ts).2 "assetCollection" tid := by
  obtain ⟨hm1, hs1⟩ := AcceptTransaction_success s msp tid ts t ht hrole
  obtain ⟨hm2, hs2⟩ := AcceptTransaction_success (AcceptTransaction s msp tid ts).2 msp tid ts2
    { t with isNewOwnerAccepted := true } hs1 hrole
  exact ⟨hm1, hs1, hm2, by rw [hs2, hs1]⟩

def c10t : TransactionRec :=
  ⟨"t1", [], "Org2MSP", true, false, true, true, 4, 5, "damaged", "o1", "o2", false⟩

def c10s : St := [("assetCollection", [("t1", Val.txn c10t)])]

theorem acceptTransaction_idempotent_witness :
    getVal c10s "assetCollection" "t1" = some (Val.txn c10t) ∧
    "Org2MSP" = c10t.newOwnerMSP ∧
    (c10t.isNewOwnerAccepted = true ∧ c10t.isCancelled = true ∧ c10t.isReturned = true) ∧
    (AcceptTransaction c10s "Org2MSP" "t1" 7).1.message = "Done" ∧
    getVal (AcceptTransaction (AcceptTransaction c10s "Org2MSP" "t1" 7).2 "Org2MSP" "t1" 8).2
        "assetCollection" "t1"
      = getVal (AcceptTransaction c10s "Org2MSP" "t1" 7).2 "assetCollection" "t1" := by
  have h := acceptTransaction_idempotent c10s "Org2MSP" "t1" 7 8 c10t (by decide) (by decide)
  exact ⟨by decide, by decide, by decide, h.1, h.2.2.2⟩

/-- C9: UpdatePrivateAsset returns an error without writing when the record
key is absent (determined by the existence probe on the key itself, with no
reference to the index), and when a record is stored it overwrites only the
tags field, keeping assetId and the whole history unchanged. -/
theorem updatePrivateAsset_contract (s : St) (msp assetId tags : String) (ts : Nat)
    (a : AssetRec) :
    (getVal s (pcoll msp) assetId = none →
      UpdatePrivateAsset s msp assetId tags ts = (⟨"Error", "Asset does not exist"⟩, s)) ∧
    (getVal s (pcoll msp) assetId = some (Val.asset a) →
      (UpdatePrivateAsset s msp assetId tags ts).1.message = "Done" ∧
      getVal (UpdatePrivateAsset s msp assetId tags ts).2 (pcoll msp) assetId
        = some (Val.asset ⟨a.assetId, tags, a.history⟩)) := by
  constructor
  · intro h
    unfold UpdatePrivateAsset
    rw [h]
  · intro h
    unfold UpdatePrivateAsset
    rw [h]
    refine ⟨rfl, ?_⟩
    rw [getVal_LogIt_ne _ _ _ _ _ _ _ (Or.inl (pcoll_ne_assetCollection msp)),
      getVal_putVal_self]

def c9a : AssetRec := ⟨"a1", "old", [⟨"Org1MSP", 1⟩]⟩

/-- A state whose index lists an id `ghost` that has no record, exercising
the probe-not-index part of C9. -/
def c9s : St :=
  [(pcoll "Org1MSP", [("assets", Val.idx ["ghost", "a1"]), ("a1", Val.asset c9a)])]

theorem updatePrivateAsset_contract_witness :
    getVal c9s (pcoll "Org1MSP") "ghost" = none ∧
    UpdatePrivateAsset c9s "Org1MSP" "ghost" "newTags" 5
      = (⟨"Error", "Asset does not exist"⟩, c9s) ∧
    getVal c9s (pcoll "Org1MSP") "a1" = some (Val.asset c9a) ∧
    (UpdatePrivateAsset c9s "Org1MSP" "a1" "newTags" 5).1.message = "Done" ∧
    getVal (UpdatePrivateAsset c9s "Org1MSP" "a1" "newTags" 5).2 (pcoll "Org1MSP") "a1"
      = some (Val.asset ⟨"a1", "newTags", [⟨"Org1MSP", 1⟩]⟩) := by
  have h1 := (updatePrivateAsset_contract c9s "Org1MSP" "ghost" "newTags" 5 c9a).1 (by decide)
  have h2 := (updatePrivateAsset_contract c9s "Org1MSP" "a1" "newTags" 5 c9a).2 (by decide)
  exact ⟨by decide, h1, by decide, h2.1, h2.2⟩

def c8acts : List Activity :=
  [⟨"Org1MSP", "d1", "A", 1⟩, ⟨"Org1MSP", "d2", "A", 2⟩, ⟨"Org1MSP", "d3", "A", 3⟩]

def c8s : St := [("assetCollection", [("activity", Val.act c8acts)])]

/-- C8: divergence exhibit.  The caller has 3 matching activity entries;
ReadLogs with start 0 and offset 2 returns the slice of length 2 but
reports count 1, because GetItemsByOffset splices (mutates) the filtered
list before ReadLogs reads its length for the count; the claim requires
count 3, the total number of matching entries. -/
theorem readLogs_countAfterSplice :
    (GetLogsByMSP c8acts "Org1MSP").length = 3 ∧
    ReadLogs c8s "Org1MSP" 0 2
      = ("Done", LogsRet.dataRet
          (some [⟨"Org1MSP", "d1", "A", 1⟩, ⟨"Org1MSP", "d2", "A", 2⟩]) 1) := by
  constructor
  · rfl
  · rfl

/-- C7 (amended): for every existing transaction record AcceptReturnTransaction
fails for every caller (the store calls receive the unjoined collection-name
array, so the index read raises and the catch handler runs), leaving the
transaction record and every collection other than assetCollection unchanged,
and touching at most the activity key of assetCollection; on a missing
transaction it errors without any write. -/
theorem acceptReturn_contract (s : St) (msp tid : String) (ts : Nat) :
    (∀ t : TransactionRec, getVal s "assetCollection" tid = some (Val.txn t) →
      (AcceptReturnTransaction s msp tid ts).1.message = "Error" ∧
      getVal (AcceptReturnTransaction s msp tid ts).2 "assetCollection" tid
        = some (Val.txn t) ∧
      (∀ c k, c ≠ "assetCollection" →
        getVal (AcceptReturnTransaction s msp tid ts).2 c k = getVal s c k) ∧
      (∀ k, k ≠ "activity" →
        getVal (AcceptReturnTransaction s msp tid ts).2 "assetCollection" k
          = getVal s "assetCollection" k)) ∧
    (getVal s "assetCollection" tid = none →
      AcceptReturnTransaction s msp tid ts = (⟨"Error", "Transaction does not exist"⟩, s)) := by
  constructor
  · intro t ht
    unfold AcceptReturnTransaction
    rw [ht]
    refine ⟨rfl, getVal_LogIt_txn _ _ _ _ _ _ _ ht, ?_, ?_⟩
    · intro c k hc
      exact getVal_LogIt_ne _ _ _ _ _ _ _ (Or.inl hc)
    · intro k hk
      exact getVal_LogIt_ne _ _ _ _ _ _ _ (Or.inr hk)
  · intro h
    unfold AcceptReturnTransaction
    rw [h]

def c7t : TransactionRec :=
  ⟨"t1", [], "Org2MSP", true, true, false, false, 0, 0, "", "Org1MSP", "o2", true⟩

def c7s : St :=
  [("assetCollection", [("t1", Val.txn c7t)]),
   (pcoll "Org1MSP", [("assets", Val.idx [])])]

/-- C7 counterexample: the original owner Org1MSP (equal to ownerOrgId of
the stored record) invokes AcceptReturnTransaction on an existing
transaction; the claim requires success with the buffer merged and the
isGotBack and isReturned flags set, but the invocation returns an Error,
the caller index is untouched, and the stored record still has
isReturned = false (and carries no isGotBack field at all). -/
theorem acceptReturn_ownerCallFails :
    c7t.ownerOrgId = "Org1MSP" ∧
    (AcceptReturnTransaction c7s "Org1MSP" "t1" 9).1.message = "Error" ∧
    getVal (AcceptReturnTransaction c7s "Org1MSP" "t1" 9).2 "assetCollection" "t1"
      = some (Val.txn c7t) ∧
    getVal (AcceptReturnTransaction c7s "Org1MSP" "t1" 9).2 (pcoll "Org1MSP") "assets"
      = some (Val.idx []) ∧
    c7t.isReturned = false := by
  exact ⟨by decide, by decide, by decide, by decide, by decide⟩

theorem acceptReturn_contract_witness :
    getVal c7s "assetCollection" "t1" = some (Val.txn c7t) ∧
    (AcceptReturnTransaction c7s "Org1MSP" "t1" 9).1.message = "Error" ∧
    getVal (AcceptReturnTransaction c7s "Org1MSP" "t1" 9).2 "assetCollection" "t1"
      = some (Val.txn c7t) ∧
    getVal (AcceptReturnTransaction c7s "Org1MSP" "t1" 9).2 (pcoll "Org1MSP") "assets"
      = getVal c7s (pcoll "Org1MSP") "assets" ∧
    getVal c7s "assetCollection" "missing" = none ∧
    AcceptReturnTransaction c7s "Org1MSP" "missing" 9
      = (⟨"Error", "Transaction does not exist"⟩, c7s) := by
  have h1 := (acceptReturn_contract c7s "Org1MSP" "t1" 9).1 c7t (by decide)
  have h2 := (acceptReturn_contract c7s "Org1MSP" "missing" 9).2 (by decide)
  exact ⟨by decide, h1.1, h1.2.1,
    h1.2.2.1 (pcoll "Org1MSP") "assets" (pcoll_ne_assetCollection "Org1MSP"),
    by decide, h2⟩

/-- C3: for a stored transaction whose caller is not newOwnerMSP,
TransferNow errors and changes nothing while isNewOwnerAccepted is false;
once isNewOwnerAccepted holds (and the caller index is stored), it removes
the record of every snapshot asset id from the caller partition and writes
the transaction back with isCurrentOwnerApproved set. -/
theorem transferNow_contract (s : St) (msp tid : String) (ts : Nat) (t : TransactionRec)
    (ht : getVal s "assetCollection" tid = some (Val.txn t))
    (hrole : msp ≠ t.newOwnerMSP) :
    (t.isNewOwnerAccepted = false →
      TransferNow s msp tid ts
        = (⟨"Error", "Cannot transfer: Receiver still not accepted the request"⟩, s)) ∧
    (∀ idx : List String, t.isNewOwnerAccepted = true →
      getVal s (pcoll msp) "assets" = some (Val.idx idx) →
      (∀ a ∈ t.assetIds, a.assetId ≠ "assets") →
      (TransferNow s msp tid ts).1.message = "Done" ∧
      (∀ a ∈ t.assetIds, getVal (TransferNow s msp tid ts).2 (pcoll msp) a.assetId = none) ∧
      getVal (TransferNow s msp tid ts).2 "assetCollection" tid
        = some (Val.txn { t with isCurrentOwnerApproved := true })) := by
  have hpc := pcoll_ne_assetCollection msp
  constructor
  · intro hacc
    unfold TransferNow
    rw [ht]
    simp [if_pos hrole, hacc]
  · intro idx hacc hidx hna
    unfold TransferNow
    rw [ht]
    simp only [if_pos hrole, hacc, if_true, hidx]
    refine ⟨by trivial, ?_, ?_⟩
    · intro a ha
      rw [getVal_LogIt_ne _ _ _ _ _ _ _ (Or.inl hpc),
        getVal_putVal_ne_coll _ _ _ _ _ _ hpc,
        getVal_putVal_ne_key _ _ _ _ _ (hna a ha)]
      exact delDocs_mem _ _ _ _ ha
    · exact getVal_LogIt_txn _ _ _ _ _ _ _ (getVal_putVal_self _ _ _ _)

def c3a : AssetRec := ⟨"a1", "tA", [⟨"Org1MSP", 1⟩]⟩

def c3t : TransactionRec :=
  ⟨"t1", [c3a], "Org2MSP", true, false, false, false, 0, 0, "", "o1", "o2", false⟩

def c3tNo : TransactionRec :=
  ⟨"t2", [c3a], "Org2MSP", false, false, false, false, 0, 0, "", "o1", "o2", false⟩

def c3s : St :=
  [("assetCollection", [("t1", Val.txn c3t), ("t2", Val.txn c3tNo)]),
   (pcoll "Org1MSP", [("assets", Val.idx []), ("a1", Val.asset c3a)])]

theorem transferNow_contract_witness :
    getVal c3s "assetCollection" "t2" = some (Val.txn c3tNo) ∧
    "Org1MSP" ≠ c3tNo.newOwnerMSP ∧
    c3tNo.isNewOwnerAccepted = false ∧
    TransferNow c3s "Org1MSP" "t2" 4
      = (⟨"Error", "Cannot transfer: Receiver still not accepted the request"⟩, c3s) ∧
    getVal c3s "assetCollection" "t1" = some (Val.txn c3t) ∧
    c3t.isNewOwnerAccepted = true ∧
    (TransferNow c3s "Org1MSP" "t1" 4).1.message = "Done" ∧
    getVal (TransferNow c3s "Org1MSP" "t1" 4).2 (pcoll "Org1MSP") "a1" = none ∧
    getVal (TransferNow c3s "Org1MSP" "t1" 4).2 "assetCollection" "t1"
      = some (Val.txn { c3t with isCurrentOwnerApproved := true }) := by
  have h1 := (transferNow_contract c3s "Org1MSP" "t2" 4 c3tNo (by decide) (by decide)).1
    (by decide)
  have h2 := (transferNow_contract c3s "Org1MSP" "t1" 4 c3t (by decide) (by decide)).2
    [] (by decide) (by decide) (by decide)
  exact ⟨by decide, by decide, by decide, h1, by decide, by decide, h2.1,
    h2.2.1 c3a (by decide), h2.2.2⟩

/-- C4: for a stored transaction whose newOwnerMSP equals the caller,
OwnAsset errors and changes nothing while isCurrentOwnerApproved is false;
once it holds, the asset ids are prepended to the caller index (created if
absent), every snapshot record is written into the caller partition with a
fresh history entry prepended to its preserved history, and the transaction
is written back with isOwnershipChanged set. -/
theorem ownAsset_contract (s : St) (msp tid : String) (ts : Nat) (t : TransactionRec)
    (ht : getVal s "assetCollection" tid = some (Val.txn t))
    (hrole : msp = t.newOwnerMSP) :
    (t.isCurrentOwnerApproved = false →
      OwnAsset s msp tid ts = (⟨"Error", "Owner still not approved the transfer"⟩, s)) ∧
    (∀ iopt : Option (List String), t.isCurrentOwnerApproved = true →
      getVal s (pcoll msp) "assets" = iopt.map Val.idx →
      (t.assetIds.map (fun a => a.assetId)).Nodup →
      (∀ a ∈ t.assetIds, a.assetId ≠ "assets") →
      (OwnAsset s msp tid ts).1.message = "Done" ∧
      getVal (OwnAsset s msp tid ts).2 (pcoll msp) "assets"
        = some (Val.idx (t.assetIds.map (fun a => a.assetId) ++ iopt.getD [])) ∧
      (∀ a ∈ t.assetIds, getVal (OwnAsset s msp tid ts).2 (pcoll msp) a.assetId
        = some (Val.asset { a with history := ⟨msp, ts⟩ :: a.history })) ∧
      getVal (OwnAsset s msp tid ts).2 "assetCollection" tid
        = some (Val.txn { t with
            assetIds := t.assetIds.map (fun a => { a with history := ⟨msp, ts⟩ :: a.history }),
            isOwnershipChanged := true })) := by
  have hpc := pcoll_ne_assetCollection msp
  constructor
  · intro happ
    unfold OwnAsset
    rw [ht]
    simp [if_pos hrole, happ]
  · intro iopt happ hidx hnd hna
    have main : ∀ sIdx : St,
        getVal sIdx (pcoll msp) "assets"
          = some (Val.idx (t.assetIds.map (fun a => a.assetId) ++ iopt.getD [])) →
        (ownFinish sIdx msp tid t ts).1.message = "Done" ∧
        getVal (ownFinish sIdx msp tid t ts).2 (pcoll msp) "assets"
          = some (Val.idx (t.assetIds.map (fun a => a.assetId) ++ iopt.getD [])) ∧
        (∀ a ∈ t.assetIds, getVal (ownFinish sIdx msp tid t ts).2 (pcoll msp) a.assetId
          = some (Val.asset { a with history := ⟨msp, ts⟩ :: a.history })) ∧
        getVal (ownFinish sIdx msp tid t ts).2 "assetCollection" tid
          = some (Val.txn { t with
              assetIds := t.assetIds.map (fun a => { a with history := ⟨msp, ts⟩ :: a.history }),
              isOwnershipChanged := true }) := by
      intro sIdx hsIdx
      refine ⟨rfl, ?_, ?_, ?_⟩
      · show getVal (LogIt (putVal (putDocs msp ts t.assetIds sIdx) "assetCollection" tid _)
            msp _ _ ts) (pcoll msp) "assets" = _
        rw [getVal_LogIt_ne _ _ _ _ _ _ _ (Or.inl hpc),
          getVal_putVal_ne_coll _ _ _ _ _ _ hpc,
          putDocs_frame_key _ _ _ _ _ (fun b hb => hna b hb)]
        exact hsIdx
      · intro a ha
        show getVal (LogIt (putVal (putDocs msp ts t.assetIds sIdx) "assetCollection" tid _)
            msp _ _ ts) (pcoll msp) a.assetId = _
        rw [getVal_LogIt_ne _ _ _ _ _ _ _ (Or.inl hpc),
          getVal_putVal_ne_coll _ _ _ _ _ _ hpc]
        exact putDocs_mem _ _ _ _ _ ha hnd
      · exact getVal_LogIt_txn _ _ _ _ _ _ _ (getVal_putVal_self _ _ _ _)
    cases iopt with
    | none =>
      have hidx2 : getVal s (pcoll msp) "assets" = none := by simpa using hidx
      have hred : OwnAsset s msp tid ts
          = ownFinish (putVal s (pcoll msp) "assets"
              (Val.idx (t.assetIds.map (fun a => a.assetId)))) msp tid t ts := by
        unfold OwnAsset
        rw [ht]
        simp only [if_pos hrole, if_pos happ, hidx2]
      rw [hred]
      exact main _ (by rw [getVal_putVal_self]; simp)
    | some old =>
      have hidx2 : getVal s (pcoll msp) "assets" = some (Val.idx old) := by simpa using hidx
      have hred : OwnAsset s msp tid ts
          = ownFinish (putVal s (pcoll msp) "assets"
              (Val.idx (t.assetIds.map (fun a => a.assetId) ++ old))) msp tid t ts := by
        unfold OwnAsset
        rw [ht]
        simp only [if_pos hrole, if_pos happ, hidx2]
      rw [hred]
      exact main _ (by rw [getVal_putVal_self]; rfl)

def c4a : AssetRec := ⟨"a1", "tA", [⟨"Org1MSP", 1⟩]⟩

def c4t : TransactionRec :=
  ⟨"t1", [c4a], "Org2MSP", true, true, false, false, 0, 0, "", "o1", "o2", false⟩

def c4tNo : TransactionRec :=
  ⟨"t2", [c4a], "Org2MSP", true, false, false, false, 0, 0, "", "o1", "o2", false⟩

def c4s : St :=
  [("assetCollection", [("t1", Val.txn c4t), ("t2", Val.txn c4tNo)]),
   (pcoll "Org2MSP", [("assets", Val.idx ["b1"])])]

theorem ownAsset_contract_witness :
    getVal c4s "assetCollection" "t2" = some (Val.txn c4tNo) ∧
    c4tNo.isCurrentOwnerApproved = false ∧
    OwnAsset c4s "Org2MSP" "t2" 6
      = (⟨"Error", "Owner still not approved the transfer"⟩, c4s) ∧
    getVal c4s "assetCollection" "t1" = some (Val.txn c4t) ∧
    c4t.isCurrentOwnerApproved = true ∧
    (OwnAsset c4s "Org2MSP" "t1" 6).1.message = "Done" ∧
    getVal (OwnAsset c4s "Org2MSP" "t1" 6).2 (pcoll "Org2MSP") "assets"
      = some (Val.idx ["a1", "b1"]) ∧
    getVal (OwnAsset c4s "Org2MSP" "t1" 6).2 (pcoll "Org2MSP") "a1"
      = some (Val.asset ⟨"a1", "tA", [⟨"Org2MSP", 6⟩, ⟨"Org1MSP", 1⟩]⟩) ∧
    getVal (OwnAsset c4s "Org2MSP" "t1" 6).2 "assetCollection" "t1"
      = some (Val.txn { c4t with
          assetIds := [⟨"a1", "tA", [⟨"Org2MSP", 6⟩, ⟨"Org1MSP", 1⟩]⟩],
          isOwnershipChanged := true }) := by
  have h1 := (ownAsset_contract c4s "Org2MSP" "t2" 6 c4tNo (by decide) (by decide)).1
    (by decide)
  have h2 := (ownAsset_contract c4s "Org2MSP" "t1" 6 c4t (by decide) (by decide)).2
    (some ["b1"]) (by decide) (by decide) (by decide) (by decide)
  exact ⟨by decide, by decide, h1, by decide, by decide, h2.1, h2.2.1,
    h2.2.2.1 c4a (by decide), h2.2.2.2⟩

/-- C6: for an existing transaction whose newOwnerMSP differs from the
caller (with the caller index stored), CancelTransaction re-inserts every
snapshot asset id into the caller index (appended after the existing
entries), touches no per-asset record, and writes the transaction back with
isCancelled set and cancelledAt equal to the invocation timestamp. -/
theorem cancelTransaction_contract (s : St) (msp tid : String) (ts : Nat)
    (t : TransactionRec) (idx : List String)
    (ht : getVal s "assetCollection" tid = some (Val.txn t))
    (hrole : t.newOwnerMSP ≠ msp)
    (hidx : getVal s (pcoll msp) "assets" = some (Val.idx idx)) :
    (CancelTransaction s msp tid ts).1.message = "Done" ∧
    getVal (CancelTransaction s msp tid ts).2 (pcoll msp) "assets"
      = some (Val.idx (idx ++ t.assetIds.map (fun a => a.assetId))) ∧
    (∀ k, k ≠ "assets" → getVal (CancelTransaction s msp tid ts).2 (pcoll msp) k
      = getVal s (pcoll msp) k) ∧
    getVal (CancelTransaction s msp tid ts).2 "assetCollection" tid
      = some (Val.txn { t with isCancelled := true, cancelledAt := ts }) := by
  have hpc := pcoll_ne_assetCollection msp
  unfold CancelTransaction
  rw [ht]
  simp only [if_neg hrole, hidx]
  refine ⟨by trivial, ?_, ?_, ?_⟩
  · rw [getVal_LogIt_ne _ _ _ _ _ _ _ (Or.inl hpc),
      getVal_putVal_ne_coll _ _ _ _ _ _ hpc,
      getVal_putVal_self]
  · intro k hk
    rw [getVal_LogIt_ne _ _ _ _ _ _ _ (Or.inl hpc),
      getVal_putVal_ne_coll _ _ _ _ _ _ hpc,
      getVal_putVal_ne_key _ _ _ _ _ hk]
  · exact getVal_LogIt_txn _ _ _ _ _ _ _ (getVal_putVal_self _ _ _ _)

def c6a : AssetRec := ⟨"a1", "tA", [⟨"Org1MSP", 1⟩]⟩

def c6t : TransactionRec :=
  ⟨"t1", [c6a], "Org2MSP", false, false, false, false, 0, 0, "", "o1", "o2", false⟩

def c6s : St :=
  [("assetCollection", [("t1", Val.txn c6t)]),
   (pcoll "Org1MSP", [("assets", Val.idx ["b1"]), ("a1", Val.asset c6a)])]

theorem cancelTransaction_contract_witness :
    getVal c6s "assetCollection" "t1" = some (Val.txn c6t) ∧
    c6t.newOwnerMSP ≠ "Org1MSP" ∧
    (CancelTransaction c6s "Org1MSP" "t1" 8).1.message = "Done" ∧
    getVal (CancelTransaction c6s "Org1MSP" "t1" 8).2 (pcoll "Org1MSP") "assets"
      = some (Val.idx ["b1", "a1"]) ∧
    getVal (CancelTransaction c6s "Org1MSP" "t1" 8).2 (pcoll "Org1MSP") "a1"
      = getVal c6s (pcoll "Org1MSP") "a1" ∧
    getVal (CancelTransaction c6s "Org1MSP" "t1" 8).2 "assetCollection" "t1"
      = some (Val.txn { c6t with isCancelled := true, cancelledAt := 8 }) := by
  have h := cancelTransaction_contract c6s "Org1MSP" "t1" 8 c6t ["b1"]
    (by decide) (by decide) (by decide)
  exact ⟨by decide, by decide, h.1, h.2.1, h.2.2.1 "a1" (by decide), h.2.2.2⟩

/-- C5 (amended): CreatePrivateTransaction snapshots exactly the requested
assets that resolve in the caller partition (in order, silently skipping
the rest), updates the caller index with the single forEach/splice removal
pass over the requested ids (a pass that skips the entry shifted into each
removed slot, so a resolved id can remain in the index), leaves every
per-asset record in place, writes the transaction record with
isNewOwnerAccepted, isCurrentOwnerApproved, isCancelled, isReturned and
isOwnershipChanged all false, and prepends { id, created } to the
transaction index. -/
theorem createPrivateTransaction_contract
    (s : St) (msp oo no tid : String) (requested : List String) (nom : String) (ts : Nat)
    (idx : List String) (topt : Option (List TxIdxEntry))
    (hidx : getVal s (pcoll msp) "assets" = some (Val.idx idx))
    (htid : tid ≠ "transactions")
    (htx : getVal s "assetCollection" "transactions" = topt.map Val.txnIdx) :
    (CreatePrivateTransaction s msp oo no tid requested nom ts).1.message = "Done" ∧
    getVal (CreatePrivateTransaction s msp oo no tid requested nom ts).2 "assetCollection" tid
      = some (Val.txn
          { id := tid, assetIds := requested.filterMap (fun i => ReadPrivateAsset s msp i),
            newOwnerMSP := nom, isNewOwnerAccepted := false, isCurrentOwnerApproved := false,
            isCancelled := false, isReturned := false, cancelledAt := 0, returnedAt := 0,
            reasonForReturn := "", ownerOrgId := oo, newOwnerOrgId := no,
            isOwnershipChanged := false }) ∧
    getVal (CreatePrivateTransaction s msp oo no tid requested nom ts).2 (pcoll msp) "assets"
      = some (Val.idx (spliceRemove requested idx)) ∧
    (∀ k, k ≠ "assets" →
      getVal (CreatePrivateTransaction s msp oo no tid requested nom ts).2 (pcoll msp) k
        = getVal s (pcoll msp) k) ∧
    getVal (CreatePrivateTransaction s msp oo no tid requested nom ts).2
        "assetCollection" "transactions"
      = some (Val.txnIdx (⟨tid, ts⟩ :: topt.getD [])) := by
  have hpc := pcoll_ne_assetCollection msp
  have hta : ("transactions" : String) ≠ "activity" := by decide
  have main : ∀ lNew : List TxIdxEntry,
      ∀ sFin : St, sFin
        = LogIt (putVal (putVal (putVal s (pcoll msp) "assets"
              (Val.idx (spliceRemove requested idx))) "assetCollection" tid
              (Val.txn
                { id := tid,
                  assetIds := requested.filterMap (fun i => ReadPrivateAsset s msp i),
                  newOwnerMSP := nom, isNewOwnerAccepted := false,
                  isCurrentOwnerApproved := false, isCancelled := false, isReturned := false,
                  cancelledAt := 0, returnedAt := 0, reasonForReturn := "", ownerOrgId := oo,
                  newOwnerOrgId := no, isOwnershipChanged := false }))
            "assetCollection" "transactions" (Val.txnIdx lNew))
          msp ("Initiated transfer of asset/s to " ++ nom) "INITIATE TRANSACTION" ts →
      getVal sFin "assetCollection" tid
        = some (Val.txn
            { id := tid, assetIds := requested.filterMap (fun i => ReadPrivateAsset s msp i),
              newOwnerMSP := nom, isNewOwnerAccepted := false, isCurrentOwnerApproved := false,
              isCancelled := false, isReturned := false, cancelledAt := 0, returnedAt := 0,
              reasonForReturn := "", ownerOrgId := oo, newOwnerOrgId := no,
              isOwnershipChanged := false }) ∧
      getVal sFin (pcoll msp) "assets" = some (Val.idx (spliceRemove requested idx)) ∧
      (∀ k, k ≠ "assets" → getVal sFin (pcoll msp) k = getVal s (pcoll msp) k) ∧
      getVal sFin "assetCollection" "transactions" = some (Val.txnIdx lNew) := by
    intro lNew sFin hs
    subst hs
    refine ⟨?_, ?_, ?_, ?_⟩
    · apply getVal_LogIt_txn
      rw [getVal_putVal_ne_key _ _ _ _ _ htid, getVal_putVal_self]
    · rw [getVal_LogIt_ne _ _ _ _ _ _ _ (Or.inl hpc),
        getVal_putVal_ne_coll _ _ _ _ _ _ hpc,
        getVal_putVal_ne_coll _ _ _ _ _ _ hpc,
        getVal_putVal_self]
    · intro k hk
      rw [getVal_LogIt_ne _ _ _ _ _ _ _ (Or.inl hpc),
        getVal_putVal_ne_coll _ _ _ _ _ _ hpc,
        getVal_putVal_ne_coll _ _ _ _ _ _ hpc,
        getVal_putVal_ne_key _ _ _ _ _ hk]
    · rw [getVal_LogIt_ne _ _ _ _ _ _ _ (Or.inr hta), getVal_putVal_self]
  cases topt with
  | none =>
    have htx2 : getVal s "assetCollection" "transactions" = none := by simpa using htx
    have hred : CreatePrivateTransaction s msp oo no tid requested nom ts
        = (⟨"Done", "Transaction " ++ tid ++ " created"⟩,
           LogIt (putVal (putVal (putVal s (pcoll msp) "assets"
                (Val.idx (spliceRemove requested idx))) "assetCollection" tid
                (Val.txn
                  { id := tid,
                    assetIds := requested.filterMap (fun i => ReadPrivateAsset s msp i),
                    newOwnerMSP := nom, isNewOwnerAccepted := false,
                    isCurrentOwnerApproved := false, isCancelled := false, isReturned := false,
                    cancelledAt := 0, returnedAt := 0, reasonForReturn := "", ownerOrgId := oo,
                    newOwnerOrgId := no, isOwnershipChanged := false }))
              "assetCollection" "transactions" (Val.txnIdx [⟨tid, ts⟩]))
            msp ("Initiated transfer of asset/s to " ++ nom) "INITIATE TRANSACTION" ts) := by
      unfold CreatePrivateTransaction
      simp only [hidx, htx2, Option.isSome_none, Bool.false_eq_true, if_false]
    rw [hred]
    exact ⟨rfl, main [⟨tid, ts⟩] _ rfl⟩
  | some l =>
    have htx2 : getVal s "assetCollection" "transactions" = some (Val.txnIdx l) := by
      simpa using htx
    have h2 : getVal (putVal (putVal s (pcoll msp) "assets"
          (Val.idx (spliceRemove requested idx))) "assetCollection" tid
          (Val.txn
            { id := tid,
              assetIds := requested.filterMap (fun i => ReadPrivateAsset s msp i),
              newOwnerMSP := nom, isNewOwnerAccepted := false,
              isCurrentOwnerApproved := false, isCancelled := false, isReturned := false,
              cancelledAt := 0, returnedAt := 0, reasonForReturn := "", ownerOrgId := oo,
              newOwnerOrgId := no, isOwnershipChanged := false }))
        "assetCollection" "transactions" = some (Val.txnIdx l) := by
      rw [getVal_putVal_ne_key _ _ _ _ _ (Ne.symm htid),
        getVal_putVal_ne_coll _ _ _ _ _ _ (Ne.symm hpc)]
      exact htx2
    have hred : CreatePrivateTransaction s msp oo no tid requested nom ts
        = (⟨"Done", "Transaction " ++ tid ++ " created"⟩,
           LogIt (putVal (putVal (putVal s (pcoll msp) "assets"
                (Val.idx (spliceRemove requested idx))) "assetCollection" tid
                (Val.txn
                  { id := tid,
                    assetIds := requested.filterMap (fun i => ReadPrivateAsset s msp i),
                    newOwnerMSP := nom, isNewOwnerAccepted := false,
                    isCurrentOwnerApproved := false, isCancelled := false, isReturned := false,
                    cancelledAt := 0, returnedAt := 0, reasonForReturn := "", ownerOrgId := oo,
                    newOwnerOrgId := no, isOwnershipChanged := false }))
              "assetCollection" "transactions" (Val.txnIdx (⟨tid, ts⟩ :: l)))
            msp ("Initiated transfer of asset/s to " ++ nom) "INITIATE TRANSACTION" ts) := by
      unfold CreatePrivateTransaction
      simp only [hidx, htx2, Option.isSome_some, if_true, h2]
    rw [hred]
    exact ⟨rfl, main (⟨tid, ts⟩ :: l) _ rfl⟩

def c5A : AssetRec := ⟨"a", "tagA", [⟨"Org1MSP", 1⟩]⟩

def c5B : AssetRec := ⟨"b", "tagB", [⟨"Org1MSP", 1⟩]⟩

def c5s : St :=
  [(pcoll "Org1MSP",
    [("assets", Val.idx ["a", "b"]), ("a", Val.asset c5A), ("b", Val.asset c5B)])]

/-- C5 counterexample: both requested ids `a` and `b` resolve in the caller
partition, yet after CreatePrivateTransaction the caller index still
contains `b`: the forEach/splice pass removes `a` at position 0, shifts `b`
into the visited slot, and never visits it again.  This contradicts the
claim that the resolved ids are removed from the caller index. -/
theorem createPrivateTransaction_resolvedIdRemains :
    ReadPrivateAsset c5s "Org1MSP" "b" = some c5B ∧
    getVal (CreatePrivateTransaction c5s "Org1MSP" "o" "n" "t1" ["a", "b"] "Org2MSP" 7).2
        (pcoll "Org1MSP") "assets" = some (Val.idx ["b"]) := by
  exact ⟨by decide, by decide⟩

theorem createPrivateTransaction_contract_witness :
    getVal c5s (pcoll "Org1MSP") "assets" = some (Val.idx ["a", "b"]) ∧
    getVal c5s "assetCollection" "transactions" = none ∧
    (CreatePrivateTransaction c5s "Org1MSP" "o" "n" "t1" ["a", "b"] "Org2MSP" 7).1.message
      = "Done" ∧
    getVal (CreatePrivateTransaction c5s "Org1MSP" "o" "n" "t1" ["a", "b"] "Org2MSP" 7).2
        "assetCollection" "t1"
      = some (Val.txn
          { id := "t1", assetIds := [c5A, c5B], newOwnerMSP := "Org2MSP",
            isNewOwnerAccepted := false, isCurrentOwnerApproved := false, isCancelled := false,
            isReturned := false, cancelledAt := 0, returnedAt := 0, reasonForReturn := "",
            ownerOrgId := "o", newOwnerOrgId := "n", isOwnershipChanged := false }) ∧
    getVal (CreatePrivateTransaction c5s "Org1MSP" "o" "n" "t1" ["a", "b"] "Org2MSP" 7).2
        (pcoll "Org1MSP") "assets" = some (Val.idx (spliceRemove ["a", "b"] ["a", "b"])) ∧
    getVal (CreatePrivateTransaction c5s "Org1MSP" "o" "n" "t1" ["a", "b"] "Org2MSP" 7).2
        (pcoll "Org1MSP") "a" = getVal c5s (pcoll "Org1MSP") "a" ∧
    getVal (CreatePrivateTransaction c5s "Org1MSP" "o" "n" "t1" ["a", "b"] "Org2MSP" 7).2
        "assetCollection" "transactions" = some (Val.txnIdx [⟨"t1", 7⟩]) := by
  have h := createPrivateTransaction_contract c5s "Org1MSP" "o" "n" "t1" ["a", "b"]
    "Org2MSP" 7 ["a", "b"] none (by decide) (by decide) (by decide)
  refine ⟨by decide, by decide, h.1, ?_, h.2.2.1, h.2.2.2.1 "a" (by decide), h.2.2.2.2⟩
  have h2 := h.2.1
  simpa using h2

/-! ### The flag invariant (C1) -/

/-- The per-record flag invariant: approval implies acceptance, and a
completed ownership change implies approval. -/
def flagsConsistent (t : TransactionRec) : Bool :=
  (!t.isCurrentOwnerApproved || t.isNewOwnerAccepted) &&
  (!t.isOwnershipChanged || t.isCurrentOwnerApproved)

def valOK : Val → Bool
  | Val.txn t => flagsConsistent t
  | _ => true

def kvOK (kv : KV) : Bool := kv.all (fun p => valOK p.2)

/-- Every transaction record stored anywhere in the state is flag-consistent. -/
def flagsInv (s : St) : Bool := s.all (fun p => kvOK p.2)

theorem all_of_alookup {α : Type} (p : String × α → Bool) (k : String) (v : α) :
    ∀ l : List (String × α), l.all p = true → alookup k l = some v → p (k, v) = true := by
  intro l
  induction l with
  | nil => intro _ h; simp [alookup] at h
  | cons hd r ih =>
    obtain ⟨k1, v1⟩ := hd
    intro hall hl
    rw [List.all_cons, Bool.and_eq_true] at hall
    unfold alookup at hl
    by_cases hk : k1 = k
    · rw [if_pos hk] at hl
      obtain rfl := Option.some_injective _ hl
      exact hk ▸ hall.1
    · rw [if_neg hk] at hl
      exact ih hall.2 hl

theorem all_aset {α : Type} (p : String × α → Bool) (k : String) (v : α) :
    ∀ l : List (String × α), l.all p = true → p (k, v) = true → (aset k v l).all p = true := by
  intro l
  induction l with
  | nil => intro _ hv; simpa [aset] using hv
  | cons hd r ih =>
    obtain ⟨k1, v1⟩ := hd
    intro hall hv
    rw [List.all_cons, Bool.and_eq_true] at hall
    unfold aset
    by_cases hk : k1 = k
    · rw [if_pos hk]
      simp [List.all_cons, hall.2, hv]
    · rw [if_neg hk]
      simp [List.all_cons, hall.1, ih hall.2 hv]

theorem all_adel {α : Type} (p : String × α → Bool) (k : String) :
    ∀ l : List (String × α), l.all p = true → (adel k l).all p = true := by
  intro l
  induction l with
  | nil => intro _; simp [adel]
  | cons hd r ih =>
    obtain ⟨k1, v1⟩ := hd
    intro hall
    rw [List.all_cons, Bool.and_eq_true] at hall
    unfold adel
    by_cases hk : k1 = k
    · rw [if_pos hk]
      exact ih hall.2
    · rw [if_neg hk]
      simp [List.all_cons, hall.1, ih hall.2]

theorem kvOK_getColl (s : St) (c : String) (hinv : flagsInv s = true) :
    kvOK (getColl s c) = true := by
  unfold getColl
  cases hc : alookup c s with
  | none => rfl
  | some kv => exact all_of_alookup _ c kv s hinv hc

theorem valOK_of_getVal (s : St) (c k : String) (v : Val) (hinv : flagsInv s = true)
    (hv : getVal s c k = some v) : valOK v = true := by
  unfold getVal at hv
  exact all_of_alookup _ k v _ (kvOK_getColl s c hinv) hv

theorem flagsInv_putVal (s : St) (c k : String) (v : Val) (hinv : flagsInv s = true)
    (hv : valOK v = true) : flagsInv (putVal s c k v) = true := by
  unfold putVal flagsInv
  exact all_aset _ c _ s hinv (all_aset _ k v _ (kvOK_getColl s c hinv) hv)

theorem flagsInv_delVal (s : St) (c k : String) (hinv : flagsInv s = true) :
    flagsInv (delVal s c k) = true := by
  unfold delVal flagsInv
  exact all_aset _ c _ s hinv (all_adel _ k _ (kvOK_getColl s c hinv))

theorem flagsInv_LogIt (s : St) (msp d a : String) (ts : Nat) (hinv : flagsInv s = true) :
    flagsInv (LogIt s msp d a ts) = true := by
  unfold LogIt
  cases hv : getVal s "assetCollection" "activity" with
  | none => exact flagsInv_putVal _ _ _ _ hinv rfl
  | some v =>
    cases v with
    | idx _ => exact hinv
    | asset _ => exact hinv
    | txn _ => exact hinv
    | txnIdx _ => exact hinv
    | act es => exact flagsInv_putVal _ _ _ _ hinv rfl

theorem flagsInv_delDocs (msp : String) (l : List AssetRec) (s : St)
    (hinv : flagsInv s = true) : flagsInv (delDocs msp l s) = true := by
  induction l generalizing s with
  | nil => exact hinv
  | cons a r ih =>
    show flagsInv (delDocs msp r (delVal s (pcoll msp) a.assetId)) = true
    exact ih _ (flagsInv_delVal _ _ _ hinv)

theorem flagsInv_putDocs (msp : String) (ts : Nat) (l : List AssetRec) (s : St)
    (hinv : flagsInv s = true) : flagsInv (putDocs msp ts l s) = true := by
  induction l generalizing s with
  | nil => exact hinv
  | cons a r ih =>
    show flagsInv (putDocs msp ts r _) = true
    exact ih _ (flagsInv_putVal _ _ _ _ hinv rfl)

theorem fc_accept (t : TransactionRec) (h : flagsConsistent t = true) :
    flagsConsistent { t with isNewOwnerAccepted := true } = true := by
  obtain ⟨i, aids, nom, acc, app, can, ret1, ca, ra, rr, oo, no, oc⟩ := t
  simp only [flagsConsistent] at h ⊢
  cases app <;> cases oc <;> simp_all

theorem fc_approve (t : TransactionRec) (hacc : t.isNewOwnerAccepted = true) :
    flagsConsistent { t with isCurrentOwnerApproved := true } = true := by
  obtain ⟨i, aids, nom, acc, app, can, ret1, ca, ra, rr, oo, no, oc⟩ := t
  simp only [flagsConsistent] at hacc ⊢
  simp_all

theorem fc_own (t : TransactionRec) (h : flagsConsistent t = true)
    (happ : t.isCurrentOwnerApproved = true) (aids : List AssetRec) :
    flagsConsistent { t with assetIds := aids, isOwnershipChanged := true } = true := by
  obtain ⟨i, aids0, nom, acc, app, can, ret1, ca, ra, rr, oo, no, oc⟩ := t
  simp only [flagsConsistent] at h happ ⊢
  subst happ
  simp_all

theorem flagsInv_AcceptTransaction (s : St) (msp tid : String) (ts : Nat)
    (hinv : flagsInv s = true) : flagsInv (AcceptTransaction s msp tid ts).2 = true := by
  unfold AcceptTransaction
  cases hv : getVal s "assetCollection" tid with
  | none => exact flagsInv_LogIt _ _ _ _ _ hinv
  | some v =>
    cases v with
    | txn t =>
      by_cases hrole : msp = t.newOwnerMSP
      · simp only [if_pos hrole]
        exact flagsInv_LogIt _ _ _ _ _ (flagsInv_putVal _ _ _ _ hinv
          (fc_accept t (valOK_of_getVal s _ _ _ hinv hv)))
      · simp only [if_neg hrole]
        exact hinv
    | idx _ => exact hinv
    | asset _ => exact hinv
    | txnIdx _ => exact hinv
    | act _ => exact hinv

theorem flagsInv_TransferNow (s : St) (msp tid : String) (ts : Nat)
    (hinv : flagsInv s = true) : flagsInv (TransferNow s msp tid ts).2 = true := by
  unfold TransferNow
  cases hv : getVal s "assetCollection" tid with
  | none => exact flagsInv_LogIt _ _ _ _ _ hinv
  | some v =>
    cases v with
    | txn t =>
      by_cases hrole : msp ≠ t.newOwnerMSP
      · simp only [if_pos hrole]
        by_cases hacc : t.isNewOwnerAccepted = true
        · simp only [if_pos hacc]
          cases hidxv : getVal s (pcoll msp) "assets" with
          | none => exact flagsInv_LogIt _ _ _ _ _ hinv
          | some w =>
            cases w with
            | idx assets =>
              exact flagsInv_LogIt _ _ _ _ _ (flagsInv_putVal _ _ _ _
                (flagsInv_putVal _ _ _ _ (flagsInv_delDocs _ _ _ hinv) rfl)
                (fc_approve t hacc))
            | asset _ => exact flagsInv_LogIt _ _ _ _ _ hinv
            | txn _ => exact flagsInv_LogIt _ _ _ _ _ hinv
            | txnIdx _ => exact flagsInv_LogIt _ _ _ _ _ hinv
            | act _ => exact flagsInv_LogIt _ _ _ _ _ hinv
        · simp only [if_neg hacc]
          exact hinv
      · simp only [if_neg hrole]
        exact hinv
    | idx _ => exact hinv
    | asset _ => exact hinv
    | txnIdx _ => exact hinv
    | act _ => exact hinv

theorem flagsInv_ownFinish (sIdx : St) (msp tid : String) (t : TransactionRec) (ts : Nat)
    (hinv : flagsInv sIdx = true) (hfc : flagsConsistent t = true)
    (happ : t.isCurrentOwnerApproved = true) :
    flagsInv (ownFinish sIdx msp tid t ts).2 = true := by
  unfold ownFinish
  exact flagsInv_LogIt _ _ _ _ _ (flagsInv_putVal _ _ _ _
    (flagsInv_putDocs _ _ _ _ hinv) (fc_own t hfc happ _))

theorem flagsInv_OwnAsset (s : St) (msp tid : String) (ts : Nat)
    (hinv : flagsInv s = true) : flagsInv (OwnAsset s msp tid ts).2 = true := by
  unfold OwnAsset
  cases hv : getVal s "assetCollection" tid with
  | none => exact flagsInv_LogIt _ _ _ _ _ hinv
  | some v =>
    cases v with
    | txn t =>
      by_cases hrole : msp = t.newOwnerMSP
      · simp only [if_pos hrole]
        by_cases happ : t.isCurrentOwnerApproved = true
        · simp only [if_pos happ]
          have hfc := valOK_of_getVal s _ _ _ hinv hv
          cases hidxv : getVal s (pcoll msp) "assets" with
          | none =>
            exact flagsInv_ownFinish _ _ _ _ _ (flagsInv_putVal _ _ _ _ hinv rfl) hfc happ
          | some w =>
            cases w with
            | idx assets =>
              exact flagsInv_ownFinish _ _ _ _ _ (flagsInv_putVal _ _ _ _ hinv rfl) hfc happ
            | asset _ => exact flagsInv_LogIt _ _ _ _ _ hinv
            | txn _ => exact flagsInv_LogIt _ _ _ _ _ hinv
            | txnIdx _ => exact flagsInv_LogIt _ _ _ _ _ hinv
            | act _ => exact flagsInv_LogIt _ _ _ _ _ hinv
        · simp only [if_neg happ]
          exact hinv
      · simp only [if_neg hrole]
        exact hinv
    | idx _ => exact hinv
    | asset _ => exact hinv
    | txnIdx _ => exact hinv
    | act _ => exact hinv

theorem flagsInv_CreatePrivateTransaction (s : St) (msp oo no tid : String)
    (requested : List String) (nom : String) (ts : Nat) (hinv : flagsInv s = true) :
    flagsInv (CreatePrivateTransaction s msp oo no tid requested nom ts).2 = true := by
  unfold CreatePrivateTransaction
  cases hidxv : getVal s (pcoll msp) "assets" with
  | none => exact flagsInv_LogIt _ _ _ _ _ hinv
  | some w =>
    cases w with
    | idx assets =>
      have h1 : flagsInv (putVal (putVal s (pcoll msp) "assets"
          (Val.idx (spliceRemove requested assets))) "assetCollection" tid
          (Val.txn
            { id := tid,
              assetIds := requested.filterMap (fun i => ReadPrivateAsset s msp i),
              newOwnerMSP := nom, isNewOwnerAccepted := false,
              isCurrentOwnerApproved := false, isCancelled := false, isReturned := false,
              cancelledAt := 0, returnedAt := 0, reasonForReturn := "", ownerOrgId := oo,
              newOwnerOrgId := no, isOwnershipChanged := false })) = true :=
        flagsInv_putVal _ _ _ _ (flagsInv_putVal _ _ _ _ hinv rfl) rfl
      by_cases hpres : (getVal s "assetCollection" "transactions").isSome = true
      · simp only [if_pos hpres]
        cases htv : getVal (putVal (putVal s (pcoll msp) "assets"
            (Val.idx (spliceRemove requested assets))) "assetCollection" tid
            (Val.txn
              { id := tid,
                assetIds := requested.filterMap (fun i => ReadPrivateAsset s msp i),
                newOwnerMSP := nom, isNewOwnerAccepted := false,
                isCurrentOwnerApproved := false, isCancelled := false, isReturned := false,
                cancelledAt := 0, returnedAt := 0, reasonForReturn := "", ownerOrgId := oo,
                newOwnerOrgId := no, isOwnershipChanged := false }))
            "assetCollection" "transactions" with
        | none => exact flagsInv_LogIt _ _ _ _ _ h1
        | some w2 =>
          cases w2 with
          | txnIdx l => exact flagsInv_LogIt _ _ _ _ _ (flagsInv_putVal _ _ _ _ h1 rfl)
          | idx _ => exact flagsInv_LogIt _ _ _ _ _ h1
          | asset _ => exact flagsInv_LogIt _ _ _ _ _ h1
          | txn _ => exact flagsInv_LogIt _ _ _ _ _ h1
          | act _ => exact flagsInv_LogIt _ _ _ _ _ h1
      · simp only [if_neg hpres]
        exact flagsInv_LogIt _ _ _ _ _ (flagsInv_putVal _ _ _ _ h1 rfl)
    | asset _ => exact flagsInv_LogIt _ _ _ _ _ hinv
    | txn _ => exact flagsInv_LogIt _ _ _ _ _ hinv
    | txnIdx _ => exact flagsInv_LogIt _ _ _ _ _ hinv
    | act _ => exact flagsInv_LogIt _ _ _ _ _ hinv

/-- The four operations the flag-invariant claim ranges over, with the
caller organization, the arguments and the invocation timestamp. -/
inductive Op where
  | createTx (msp ownerOrgId newOwnerOrgId transactionId : String)
      (assetIds : List String) (newOwnerMSP : String) (ts : Nat)
  | accept (msp transactionId : String) (ts : Nat)
  | approve (msp transactionId : String) (ts : Nat)
  | own (msp transactionId : String) (ts : Nat)

def applyOp (s : St) : Op → St
  | Op.createTx msp oo no tid ids nom ts =>
      (CreatePrivateTransaction s msp oo no tid ids nom ts).2
  | Op.accept msp tid ts => (AcceptTransaction s msp tid ts).2
  | Op.approve msp tid ts => (TransferNow s msp tid ts).2
  | Op.own msp tid ts => (OwnAsset s msp tid ts).2

/-- Run a sequence of invocations of the four operations. -/
def run (ops : List Op) (s : St) : St := ops.foldl applyOp s

theorem flagsInv_applyOp (s : St) (op : Op) (hinv : flagsInv s = true) :
    flagsInv (applyOp s op) = true := by
  cases op with
  | createTx msp oo no tid ids nom ts =>
    exact flagsInv_CreatePrivateTransaction s msp oo no tid ids nom ts hinv
  | accept msp tid ts => exact flagsInv_AcceptTransaction s msp tid ts hinv
  | approve msp tid ts => exact flagsInv_TransferNow s msp tid ts hinv
  | own msp tid ts => exact flagsInv_OwnAsset s msp tid ts hinv

theorem flagsInv_run (ops : List Op) (s : St) (hinv : flagsInv s = true) :
    flagsInv (run ops s) = true := by
  induction ops generalizing s with
  | nil => exact hinv
  | cons op r ih =>
    show flagsInv (run r (applyOp s op)) = true
    exact ih _ (flagsInv_applyOp s op hinv)

/-- C1: starting from any state satisfying the flag invariant (in
particular the empty ledger), after any sequence of
CreatePrivateTransaction, AcceptTransaction, TransferNow and OwnAsset
invocations, every stored transaction record whose isOwnershipChanged flag
is true also has isNewOwnerAccepted and isCurrentOwnerApproved true. -/
theorem ownershipFlagInvariant (ops : List Op) (s : St) (hinv : flagsInv s = true)
    (c k : String) (t : TransactionRec)
    (hget : getVal (run ops s) c k = some (Val.txn t))
    (hoc : t.isOwnershipChanged = true) :
    t.isNewOwnerAccepted = true ∧ t.isCurrentOwnerApproved = true := by
  have h := valOK_of_getVal _ _ _ _ (flagsInv_run ops s hinv) hget
  obtain ⟨i, aids, nom, acc, app, can, ret1, ca, ra, rr, oo, no, oc⟩ := t
  simp only [flagsConsistent, valOK] at h hoc ⊢
  subst hoc
  cases acc <;> cases app <;> simp_all

def c1a : AssetRec := ⟨"a1", "tA", [⟨"Org1MSP", 1⟩]⟩

def c1s : St := [(pcoll "Org1MSP", [("assets", Val.idx ["a1"]), ("a1", Val.asset c1a)])]

def c1ops : List Op :=
  [Op.createTx "Org1MSP" "o1" "o2" "t1" ["a1"] "Org2MSP" 2,
   Op.accept "Org2MSP" "t1" 3,
   Op.approve "Org1MSP" "t1" 4,
   Op.own "Org2MSP" "t1" 5]

def c1t : TransactionRec :=
  ⟨"t1", [⟨"a1", "tA", [⟨"Org2MSP", 5⟩, ⟨"Org1MSP", 1⟩]⟩], "Org2MSP",
   true, true, false, false, 0, 0, "", "o1", "o2", true⟩

theorem ownershipFlagInvariant_witness :
    flagsInv c1s = true ∧
    getVal (run c1ops c1s) "assetCollection" "t1" = some (Val.txn c1t) ∧
    c1t.isOwnershipChanged = true ∧
    (c1t.isNewOwnerAccepted = true ∧ c1t.isCurrentOwnerApproved = true) := by
  refine ⟨by decide, by decide, by decide, ?_⟩
  exact ownershipFlagInvariant c1ops c1s (by decide) "assetCollection" "t1" c1t
    (by decide) (by decide)

end Chaincode
